import Mathlib

/-!
# Module orchestration of the bitcoin chain application (`app/app.go`)

A shallow embedding of `NewBitcoinApp`, `InitChainer` and `LoadHeight`.

* String constants of the SDK type packages carry the values the SDK gives them.
* The constants of `x/bitcoin/types` are not part of `app/app.go`; they are the
  parameter `bitcointypes : BitcoinTypes` of every definition that mentions them.
* A Go `map[string]*T` is an association list with overwrite-on-insert.
* A Go `panic` is the `Outcome.panicked` result; calls into the store engine, the
  codec and the module manager are recorded in a call log (`Run.calls`).
* `NewBitcoinApp.wiring` is what lines 123-201 declare (key names, keeper
  constructions, modules, ordering lists); `NewBitcoinApp` runs them, with the panics
  of the SDK constructors on the way.
-/

namespace app

/-! ## Constants of the type packages -/

namespace authtypes
/-- Go: `authtypes.ModuleName`. -/
def ModuleName : String := "auth"
/-- Go: `authtypes.StoreKey`. -/
def StoreKey : String := "acc"
end authtypes

namespace banktypes
/-- Go: `banktypes.ModuleName`. -/
def ModuleName : String := "bank"
/-- Go: `banktypes.StoreKey`. -/
def StoreKey : String := "bank"
end banktypes

namespace stakingtypes
/-- Go: `stakingtypes.ModuleName`. -/
def ModuleName : String := "staking"
/-- Go: `stakingtypes.StoreKey`. -/
def StoreKey : String := "staking"
/-- Go: `stakingtypes.BondedPoolName`. -/
def BondedPoolName : String := "bonded_tokens_pool"
/-- Go: `stakingtypes.NotBondedPoolName`. -/
def NotBondedPoolName : String := "not_bonded_tokens_pool"
end stakingtypes

namespace paramstypes
/-- Go: `paramstypes.ModuleName`. -/
def ModuleName : String := "params"
/-- Go: `paramstypes.StoreKey`. -/
def StoreKey : String := "params"
/-- Go: `paramstypes.TStoreKey`. -/
def TStoreKey : String := "transient_params"
end paramstypes

namespace capabilitytypes
/-- Go: `capabilitytypes.ModuleName`. -/
def ModuleName : String := "capability"
/-- Go: `capabilitytypes.StoreKey`. -/
def StoreKey : String := "capability"
/-- Go: `capabilitytypes.MemStoreKey`. -/
def MemStoreKey : String := "memory:capability"
end capabilitytypes

/-- The two constants of package `x/bitcoin/types` that `app.go` reads
(`bitcointypes.ModuleName`, `bitcointypes.StoreKey`).  Their values are declared
outside `app/app.go`, so they are a parameter of the embedding. -/
structure BitcoinTypes where
  ModuleName : String
  StoreKey : String
  deriving DecidableEq, Repr

/-! ## Store keys and key maps -/

/-- The three kinds of store key: `*sdk.KVStoreKey`, `*sdk.TransientStoreKey`,
`*sdk.MemoryStoreKey`. -/
inductive StoreKind where
  | persistent
  | transient
  | memory
  deriving DecidableEq, Repr

/-- A store key: the handle of one partition, identified by kind and name. -/
structure StoreKey where
  kind : StoreKind
  name : String
  deriving DecidableEq, Repr

/-- A Go `map[string]*StoreKey`. -/
abbrev KeyMap := List (String × StoreKey)

/-- Go: `m[name] = key`. -/
def KeyMap.set (m : KeyMap) (name : String) (key : StoreKey) : KeyMap :=
  (name, key) :: m.filter (fun e => e.1 != name)

/-- Go: `m[name]`; `none` is the `nil` a Go map yields for an absent name. -/
def KeyMap.get (m : KeyMap) (name : String) : Option StoreKey :=
  m.lookup name

/-- The `for _, n := range names { keys[n] = New...StoreKey(n) }` loop shared by the
three `sdk.New...StoreKeys` functions. -/
def newStoreKeys (kind : StoreKind) (names : List String) : KeyMap :=
  names.foldl (fun m n => m.set n ⟨kind, n⟩) []

/-- Go: `sdk.NewKVStoreKeys(names...)`. -/
def NewKVStoreKeys (names : List String) : KeyMap :=
  newStoreKeys StoreKind.persistent names

/-- Go: `sdk.NewTransientStoreKeys(names...)`. -/
def NewTransientStoreKeys (names : List String) : KeyMap :=
  newStoreKeys StoreKind.transient names

/-- Go: `sdk.NewMemoryStoreKeys(names...)`. -/
def NewMemoryStoreKeys (names : List String) : KeyMap :=
  newStoreKeys StoreKind.memory names

/-! ## Keepers -/

/-- The variables of `NewBitcoinApp` that hold a keeper: the six keeper fields of
`App` and the local `scopedCapabilityKeeper`. -/
inductive KeeperVar where
  | ParamsKeeper
  | AccountKeeper
  | BankKeeper
  | scopedCapabilityKeeper
  | CapabilityKeeper
  | StakingKeeper
  | BitcoinKeeper
  deriving DecidableEq, Repr

/-- A store-key argument of a keeper constructor, `app.keys[name]`,
`app.tkeys[name]` or `app.memKeys[name]`: which of the three maps is indexed, the
name used, and the value the lookup yields (`none` for a `nil` key). -/
structure KeyArg where
  map : StoreKind
  name : String
  key : Option StoreKey
  deriving DecidableEq, Repr

/-- What a keeper constructor call in `NewBitcoinApp` receives: its store-key
arguments and the keeper variables read for its peer-keeper arguments, both in
argument order. -/
structure Keeper where
  storeKeys : List KeyArg
  peers : List KeeperVar
  deriving DecidableEq, Repr

/-- The module packages `app.go` wires: `x/params`, `x/auth`, `x/bank`,
`x/capability`, `x/staking` of the SDK and `x/bitcoin` of this repository. -/
inductive Module where
  | params
  | auth
  | bank
  | capability
  | staking
  | bitcoin
  deriving DecidableEq, Repr

/-- One keeper construction statement: the variable assigned, the module package
whose keeper constructor is called, and the arguments it receives. -/
structure KeeperCall where
  target : KeeperVar
  owner : Module
  keeper : Keeper
  deriving DecidableEq, Repr

/-! ## Module manager -/

/-- Modelled from the spec: the name reported by the `AppModule` of `x/bitcoin`
(its `Name` method lives in `x/bitcoin/module.go`, outside `app/app.go`).  The spec
has one `ModuleName` per module, "used both as a partition namespace and as an
ordering-list element", so the descriptor reports `bitcointypes.ModuleName`. -/
def bitcoinAppModuleName (bitcointypes : BitcoinTypes) : String :=
  bitcointypes.ModuleName

/-- Go: `AppModule.Name()` of each module package: the SDK modules return the
`ModuleName` constant of their type package. -/
def Module.Name (bitcointypes : BitcoinTypes) : Module → String
  | Module.params => paramstypes.ModuleName
  | Module.auth => authtypes.ModuleName
  | Module.bank => banktypes.ModuleName
  | Module.capability => capabilitytypes.ModuleName
  | Module.staking => stakingtypes.ModuleName
  | Module.bitcoin => bitcoinAppModuleName bitcointypes

/-- An `AppModule` value handed to `module.NewManager`: the package whose
`NewAppModule` built it, its name, and the keeper variables passed to
`NewAppModule` in argument order (the module's own keeper first). -/
structure AppModule where
  pkg : Module
  Name : String
  keepers : List KeeperVar
  deriving DecidableEq, Repr

/-- Go: `<pkg>.NewAppModule(..., keepers...)`. -/
def NewAppModule (bitcointypes : BitcoinTypes) (pkg : Module) (keepers : List KeeperVar) :
    AppModule :=
  { pkg := pkg, Name := pkg.Name bitcointypes, keepers := keepers }

/-- Go: `module.Manager`. -/
structure Manager where
  Modules : List AppModule
  OrderInitGenesis : List String
  OrderBeginBlockers : List String
  OrderEndBlockers : List String
  deriving DecidableEq, Repr

/-- Go: `module.NewManager(modules...)`; every order starts as registration order. -/
def NewManager (modules : List AppModule) : Manager :=
  { Modules := modules
    OrderInitGenesis := modules.map AppModule.Name
    OrderBeginBlockers := modules.map AppModule.Name
    OrderEndBlockers := modules.map AppModule.Name }

/-- Go: `(*module.Manager).SetOrderBeginBlockers(moduleNames...)`. -/
def Manager.SetOrderBeginBlockers (m : Manager) (moduleNames : List String) : Manager :=
  { m with OrderBeginBlockers := moduleNames }

/-- Go: `(*module.Manager).SetOrderEndBlockers(moduleNames...)`. -/
def Manager.SetOrderEndBlockers (m : Manager) (moduleNames : List String) : Manager :=
  { m with OrderEndBlockers := moduleNames }

/-- Go: `(*module.Manager).SetOrderInitGenesis(moduleNames...)`. -/
def Manager.SetOrderInitGenesis (m : Manager) (moduleNames : List String) : Manager :=
  { m with OrderInitGenesis := moduleNames }

/-! ## Outcomes, call log and collaborators -/

/-- Go `error` values. -/
abbrev Error := String

/-- Raw bytes (`[]byte`, `json.RawMessage`). -/
abbrev Bytes := List Nat

/-- Go: `map[string]json.RawMessage`, the decoded genesis envelope. -/
abbrev GenesisState := List (String × Bytes)

/-- How a Go call ends: it returns a value, or it panics. -/
inductive Outcome (α : Type) where
  | returned (value : α)
  | panicked (err : Error)
  deriving DecidableEq, Repr

/-- The calls `app.go` makes into the store engine, the codec and the module
manager's genesis driver. -/
inductive Call where
  | MountKVStores (keys : KeyMap)
  | MountTransientStores (keys : KeyMap)
  | MountMemoryStores (keys : KeyMap)
  | LoadLatestVersion
  | LoadVersion (height : Int)
  | MustUnmarshalJSON (bz : Bytes)
  | InitGenesis (genesisState : GenesisState)
  deriving DecidableEq, Repr

/-- A finished call: the collaborator calls it made, in order, and how it ended. -/
structure Run (α : Type) where
  calls : List Call
  result : Outcome α

/-- The collaborators behind `App`: the store engine reached through the embedded
`*baseapp.BaseApp` (`LoadLatestVersion`, `LoadVersion`; `none` is a `nil` error),
the codec `app.cdc` (`UnmarshalJSON`), the genesis driver of the module manager
(`app.mm.InitGenesis`), and the validation the three order setters of
`module.Manager` apply to (setter name, registered module names, `moduleNames`)
before storing the list (`none`: the setter returns; `some`: it panics). -/
structure Collaborators (Context Response : Type) where
  LoadLatestVersion : List StoreKey → Option Error
  LoadVersion : Int → Option Error
  UnmarshalJSON : Bytes → Except Error GenesisState
  InitGenesis : Manager → Context → GenesisState → Outcome Response
  SetOrderCheck : String → List String → List String → Option Error

/-- The first panic among checks made in order; `none` when all of them pass. -/
def firstPanic : List (Option Error) → Option Error
  | [] => none
  | some err :: _ => some err
  | none :: rest => firstPanic rest

/-- Go: `strings.HasPrefix(s, p)`. -/
def HasPrefix (s p : String) : Bool :=
  p.data.isPrefixOf s.data

/-- Go: `assertNoCommonPrefix(names)` of the SDK: is some requested name a prefix
of another requested name (a repeated name and the empty name next to any other
name included)? -/
def hasCommonPrefix : List String → Bool
  | [] => false
  | n :: rest => rest.any (fun m => HasPrefix m n || HasPrefix n m) || hasCommonPrefix rest

/-- The panics of `sdk.New...StoreKeys(names...)`: `assertNoCommonPrefix(names)`
first, then `New...StoreKey(name)`, which refuses the empty name.  `none` when the
key map is returned, which is then `newStoreKeys kind names`. -/
def assertStoreKeyNames (names : List String) : Option Error :=
  if hasCommonPrefix names then some "potential key collision between KVStores"
  else if names.any (fun n => n = "") then some "empty key name not allowed"
  else none

/-- Go: `map[string][]string`, the module-account permissions handed to
`authkeeper.NewAccountKeeper`; the `nil` map is the empty list. -/
abbrev MaccPerms := List (String × List String)

/-- Go: `AccountKeeper.GetModuleAddress(name)`: the address of the module account
(here: the name it is derived from) when `name` has an entry in the permissions
the keeper was constructed with, `nil` otherwise. -/
def GetModuleAddress (maccPerms : MaccPerms) (name : String) : Option String :=
  (maccPerms.lookup name).map (fun _ => name)

/-- Go: the guard at the head of `stakingkeeper.NewKeeper(cdc, key, ak, bk, ps)`:
it panics unless the account keeper `ak` knows the module accounts of the bonded
and the not-bonded pool. -/
def stakingkeeperEnsureModuleAccounts (maccPerms : MaccPerms) : Option Error :=
  if (GetModuleAddress maccPerms stakingtypes.BondedPoolName).isNone then
    some "bonded_tokens_pool module account has not been set"
  else if (GetModuleAddress maccPerms stakingtypes.NotBondedPoolName).isNone then
    some "not_bonded_tokens_pool module account has not been set"
  else none

/-- Go: the store engine's `MountStoreWithDB`, reached through `Mount...Stores`:
it refuses a key whose name is already mounted. -/
def mountCollision (mounted : KeyMap) (m : KeyMap) : Bool :=
  m.any (fun e => mounted.any (fun k => k.2.name = e.2.name))

/-- Go: `(*codec.LegacyAmino).MustUnmarshalJSON`: panics when `UnmarshalJSON`
reports an error. -/
def MustUnmarshalJSON {Context Response : Type} (c : Collaborators Context Response)
    (bz : Bytes) : Outcome GenesisState :=
  match c.UnmarshalJSON bz with
  | Except.ok genesisState => Outcome.returned genesisState
  | Except.error err => Outcome.panicked err

/-! ## The application -/

/-- Go: `type App struct`: the key maps, the keepers (as the construction
statements executed so far, in order) and the module manager (`none` is `nil`). -/
structure App where
  keys : KeyMap
  tkeys : KeyMap
  memKeys : KeyMap
  keepers : List KeeperCall
  mm : Option Manager
  deriving DecidableEq, Repr

/-- Go: the expression `app.keys[name]`. -/
def App.keysAt (app : App) (name : String) : KeyArg :=
  { map := StoreKind.persistent, name := name, key := app.keys.get name }

/-- Go: the expression `app.tkeys[name]`. -/
def App.tkeysAt (app : App) (name : String) : KeyArg :=
  { map := StoreKind.transient, name := name, key := app.tkeys.get name }

/-- Go: the expression `app.memKeys[name]`. -/
def App.memKeysAt (app : App) (name : String) : KeyArg :=
  { map := StoreKind.memory, name := name, key := app.memKeys.get name }

/-- The key map of `App` that holds the keys of one kind. -/
def App.mapOf (app : App) : StoreKind → KeyMap
  | StoreKind.persistent => app.keys
  | StoreKind.transient => app.tkeys
  | StoreKind.memory => app.memKeys

/-- The names handed to `sdk.NewKVStoreKeys`, `sdk.NewTransientStoreKeys` and
`sdk.NewMemoryStoreKeys` in the `App` literal (lines 129-134). -/
def NewBitcoinApp.requested (bitcointypes : BitcoinTypes) : StoreKind → List String
  | StoreKind.persistent => [
      authtypes.StoreKey, banktypes.StoreKey, stakingtypes.StoreKey,
      paramstypes.StoreKey, capabilitytypes.StoreKey, bitcointypes.StoreKey]
  | StoreKind.transient => [paramstypes.TStoreKey]
  | StoreKind.memory => [capabilitytypes.MemStoreKey]

/-- Go: `<var> = <owner>keeper.New...(...)`: one more keeper constructed. -/
def App.construct (app : App) (target : KeeperVar) (owner : Module) (keeper : Keeper) : App :=
  { app with keepers := app.keepers ++ [{ target := target, owner := owner, keeper := keeper }] }

/-- Lines 123-201 of `NewBitcoinApp`: the `App` literal with its three key maps,
the keeper constructions, module registration and the three ordering lists. -/
def NewBitcoinApp.wiring (bitcointypes : BitcoinTypes) : App :=
  -- Create app instance
  let app : App :=
    { keys := NewKVStoreKeys (NewBitcoinApp.requested bitcointypes StoreKind.persistent)
      tkeys := NewTransientStoreKeys (NewBitcoinApp.requested bitcointypes StoreKind.transient)
      memKeys := NewMemoryStoreKeys (NewBitcoinApp.requested bitcointypes StoreKind.memory)
      keepers := []
      mm := none }
  -- Set up param keeper
  let app := app.construct KeeperVar.ParamsKeeper Module.params
    { storeKeys := [app.keysAt paramstypes.StoreKey, app.tkeysAt paramstypes.TStoreKey]
      peers := [] }
  -- Set up account keeper
  let app := app.construct KeeperVar.AccountKeeper Module.auth
    { storeKeys := [app.keysAt authtypes.StoreKey], peers := [] }
  -- Set up bank keeper
  let app := app.construct KeeperVar.BankKeeper Module.bank
    { storeKeys := [app.keysAt banktypes.StoreKey], peers := [KeeperVar.AccountKeeper] }
  -- Set up capability keeper
  let app := app.construct KeeperVar.scopedCapabilityKeeper Module.capability
    { storeKeys := [app.keysAt capabilitytypes.StoreKey,
                    app.memKeysAt capabilitytypes.MemStoreKey]
      peers := [] }
  let app := app.construct KeeperVar.CapabilityKeeper Module.capability
    { storeKeys := [app.keysAt capabilitytypes.StoreKey,
                    app.memKeysAt capabilitytypes.MemStoreKey]
      peers := [] }
  -- Set up staking keeper
  let app := app.construct KeeperVar.StakingKeeper Module.staking
    { storeKeys := [app.keysAt stakingtypes.StoreKey]
      peers := [KeeperVar.AccountKeeper, KeeperVar.BankKeeper] }
  -- Set up bitcoin keeper
  let app := app.construct KeeperVar.BitcoinKeeper Module.bitcoin
    { storeKeys := [app.keysAt bitcointypes.StoreKey]
      peers := [KeeperVar.BankKeeper, KeeperVar.AccountKeeper] }
  -- Register modules
  let mm := NewManager [
    NewAppModule bitcointypes Module.auth [KeeperVar.AccountKeeper],
    NewAppModule bitcointypes Module.bank [KeeperVar.BankKeeper, KeeperVar.AccountKeeper],
    NewAppModule bitcointypes Module.capability [KeeperVar.CapabilityKeeper],
    NewAppModule bitcointypes Module.params [KeeperVar.ParamsKeeper],
    NewAppModule bitcointypes Module.staking
      [KeeperVar.StakingKeeper, KeeperVar.AccountKeeper, KeeperVar.BankKeeper],
    NewAppModule bitcointypes Module.bitcoin [KeeperVar.BitcoinKeeper, KeeperVar.BankKeeper]]
  -- Set order of execution
  let mm := mm.SetOrderBeginBlockers [
    capabilitytypes.ModuleName,
    authtypes.ModuleName,
    banktypes.ModuleName,
    stakingtypes.ModuleName,
    bitcointypes.ModuleName]
  let mm := mm.SetOrderEndBlockers [
    stakingtypes.ModuleName,
    bitcointypes.ModuleName]
  -- Set order of initialization
  let mm := mm.SetOrderInitGenesis [
    capabilitytypes.ModuleName,
    authtypes.ModuleName,
    banktypes.ModuleName,
    stakingtypes.ModuleName,
    bitcointypes.ModuleName]
  { app with mm := some mm }

/-- The store keys mounted by the three `Mount...Stores` calls. -/
def App.mounted (app : App) : List StoreKey :=
  (app.keys ++ app.tkeys ++ app.memKeys).map Prod.snd

/-- The body of `NewBitcoinApp`, with the module-account permissions argument of
`authkeeper.NewAccountKeeper` (line 144) as the parameter `maccPerms`.

In source order: the three `sdk.New...StoreKeys` calls of the `App` literal may
panic; the keeper constructors run, of which `stakingkeeper.NewKeeper` (lines
161-163) panics unless the account keeper it is handed knows the pool module
accounts; the modules are registered and the three order setters run; the three
key maps are mounted; and, when `loadLatest` is set, the store engine is asked for
the latest version, with a panic on an error.  The constructor of the bitcoin
keeper lives in `x/bitcoin/keeper`, outside `app/app.go`, and is taken to return. -/
def NewBitcoinApp.build {Context Response : Type} (c : Collaborators Context Response)
    (bitcointypes : BitcoinTypes) (maccPerms : MaccPerms) (loadLatest : Bool) : Run App :=
  let app := NewBitcoinApp.wiring bitcointypes
  let registered := (app.mm.map (fun mm => mm.Modules.map AppModule.Name)).getD []
  let order := fun (f : Manager → List String) => (app.mm.map f).getD []
  match firstPanic [
      -- Create app instance
      assertStoreKeyNames (NewBitcoinApp.requested bitcointypes StoreKind.persistent),
      assertStoreKeyNames (NewBitcoinApp.requested bitcointypes StoreKind.transient),
      assertStoreKeyNames (NewBitcoinApp.requested bitcointypes StoreKind.memory),
      -- Set up staking keeper
      stakingkeeperEnsureModuleAccounts maccPerms,
      -- Set order of execution
      c.SetOrderCheck "SetOrderBeginBlockers" registered (order Manager.OrderBeginBlockers),
      c.SetOrderCheck "SetOrderEndBlockers" registered (order Manager.OrderEndBlockers),
      -- Set order of initialization
      c.SetOrderCheck "SetOrderInitGenesis" registered (order Manager.OrderInitGenesis)] with
  | some err => { calls := [], result := Outcome.panicked err }
  | none =>
    -- Initialize stores
    let kv := Call.MountKVStores app.keys
    let transient := Call.MountTransientStores app.tkeys
    let memory := Call.MountMemoryStores app.memKeys
    if mountCollision app.keys app.tkeys then
      { calls := [kv, transient]
        result := Outcome.panicked "store duplicate store key name" }
    else if mountCollision (app.keys ++ app.tkeys) app.memKeys then
      { calls := [kv, transient, memory]
        result := Outcome.panicked "store duplicate store key name" }
    -- Initialize the application
    else if loadLatest then
      match c.LoadLatestVersion app.mounted with
      | some err =>
        { calls := [kv, transient, memory, Call.LoadLatestVersion]
          result := Outcome.panicked err }
      | none =>
        { calls := [kv, transient, memory, Call.LoadLatestVersion]
          result := Outcome.returned app }
    else
      { calls := [kv, transient, memory], result := Outcome.returned app }

/-- Go: `NewBitcoinApp`: the account keeper is constructed with `nil` module-account
permissions (the fourth argument at line 144). -/
def NewBitcoinApp {Context Response : Type} (c : Collaborators Context Response)
    (bitcointypes : BitcoinTypes) (loadLatest : Bool) : Run App :=
  NewBitcoinApp.build c bitcointypes [] loadLatest

/-- Go: `tmproto.RequestInitChain` (the field `InitChainer` reads). -/
structure RequestInitChain where
  AppStateBytes : Bytes
  deriving DecidableEq, Repr

/-- Go: `(*App).InitChainer`.  The codec argument `app.appCodec` of `InitGenesis`
is part of the genesis driver here; a `nil` module manager makes the call
`app.mm.InitGenesis` a nil-pointer panic. -/
def InitChainer {Context Response : Type} (c : Collaborators Context Response)
    (app : App) (ctx : Context) (req : RequestInitChain) : Run Response :=
  match MustUnmarshalJSON c req.AppStateBytes with
  | Outcome.panicked err =>
    { calls := [Call.MustUnmarshalJSON req.AppStateBytes], result := Outcome.panicked err }
  | Outcome.returned genesisState =>
    match app.mm with
    | none =>
      { calls := [Call.MustUnmarshalJSON req.AppStateBytes]
        result := Outcome.panicked "invalid memory address or nil pointer dereference" }
    | some mm =>
      { calls := [Call.MustUnmarshalJSON req.AppStateBytes, Call.InitGenesis genesisState]
        result := c.InitGenesis mm ctx genesisState }

/-- Go: `(*App).LoadHeight`: hands back whatever `LoadVersion` reports. -/
def LoadHeight {Context Response : Type} (c : Collaborators Context Response)
    (height : Int) : Run (Option Error) :=
  { calls := [Call.LoadVersion height], result := Outcome.returned (c.LoadVersion height) }

/-! ## Predicates used by the statements -/

/-- The name of the bitcoin module is not the name of one of the five SDK modules
registered next to it. -/
def BitcoinTypes.UniqueModuleName (bitcointypes : BitcoinTypes) : Prop :=
  bitcointypes.ModuleName ∉ [
    authtypes.ModuleName, banktypes.ModuleName, capabilitytypes.ModuleName,
    paramstypes.ModuleName, stakingtypes.ModuleName]

instance (bitcointypes : BitcoinTypes) : Decidable bitcointypes.UniqueModuleName :=
  inferInstanceAs (Decidable (_ ∉ _))

/-- The store-key name of the bitcoin module is not one of the persistent
store-key names of the five SDK modules. -/
def BitcoinTypes.UniqueStoreKey (bitcointypes : BitcoinTypes) : Prop :=
  bitcointypes.StoreKey ∉ [
    authtypes.StoreKey, banktypes.StoreKey, stakingtypes.StoreKey,
    paramstypes.StoreKey, capabilitytypes.StoreKey]

instance (bitcointypes : BitcoinTypes) : Decidable bitcointypes.UniqueStoreKey :=
  inferInstanceAs (Decidable (_ ∉ _))

/-- The keeper dependency graph of `NewBitcoinApp`: an edge from the keeper held by
`k` to the keeper held by `p` when `p` is passed to the constructor call that is
assigned to `k`. -/
def NewBitcoinApp.dependsOn (bitcointypes : BitcoinTypes) (k p : KeeperVar) : Prop :=
  ∃ c ∈ (NewBitcoinApp.wiring bitcointypes).keepers, c.target = k ∧ p ∈ c.keeper.peers

/-- The position of a keeper variable's construction statement in `NewBitcoinApp`. -/
def KeeperVar.position : KeeperVar → Nat
  | KeeperVar.ParamsKeeper => 0
  | KeeperVar.AccountKeeper => 1
  | KeeperVar.BankKeeper => 2
  | KeeperVar.scopedCapabilityKeeper => 3
  | KeeperVar.CapabilityKeeper => 4
  | KeeperVar.StakingKeeper => 5
  | KeeperVar.BitcoinKeeper => 6

/-- A sample `x/bitcoin/types`: both constants are `"bitcoin"`. -/
def sampleBitcoinTypes : BitcoinTypes :=
  { ModuleName := "bitcoin", StoreKey := "bitcoin" }

/-- The bytes of the genesis envelope `{"auth":1,"bank":2}`. -/
def sampleAppStateBytes : Bytes :=
  [123, 34, 97, 117, 116, 104, 34, 58, 49, 44, 34, 98, 97, 110, 107, 34, 58, 50, 125]

/-- The envelope `sampleAppStateBytes` decodes to: `auth` maps to the blob `1`,
`bank` to the blob `2`. -/
def sampleGenesisState : GenesisState :=
  [("auth", [49]), ("bank", [50])]

/-- A sample set of collaborators: a store engine that has committed heights 1 to 3
and reports an error for any other height; a codec that decodes `{}` to the empty
envelope and `sampleAppStateBytes` to `sampleGenesisState`, and rejects everything
else; a genesis driver that returns the envelope it was given, entry by entry; and
order setters that only store the list. -/
def sampleCollaborators : Collaborators Unit GenesisState :=
  { LoadLatestVersion := fun _ => none
    LoadVersion := fun height =>
      if height ∈ [1, 2, 3] then none else some "version does not exist"
    UnmarshalJSON := fun bz =>
      if bz = [123, 125] then Except.ok []
      else if bz = sampleAppStateBytes then Except.ok sampleGenesisState
      else Except.error "invalid character"
    InitGenesis := fun _ _ genesisState => Outcome.returned genesisState
    SetOrderCheck := fun _ _ _ => none }

/-- A store engine like `sampleCollaborators` whose latest version cannot be
loaded. -/
def brokenCollaborators : Collaborators Unit GenesisState :=
  { sampleCollaborators with LoadLatestVersion := fun _ => some "failed to load latest version" }

/-- Module-account permissions that name the two staking pools, as an application
with a staking module declares them. -/
def samplePermissions : MaccPerms :=
  [(stakingtypes.BondedPoolName, ["burner", "staking"]),
   (stakingtypes.NotBondedPoolName, ["burner", "staking"])]

/-- The bank keeper construction of `NewBitcoinApp` (lines 148-150), evaluated. -/
def sampleBankCall : KeeperCall :=
  { target := KeeperVar.BankKeeper
    owner := Module.bank
    keeper :=
      { storeKeys := [⟨StoreKind.persistent, "bank", some ⟨StoreKind.persistent, "bank"⟩⟩]
        peers := [KeeperVar.AccountKeeper] } }

/-- The bitcoin keeper construction of `NewBitcoinApp` (lines 166-168), evaluated
for `sampleBitcoinTypes`. -/
def sampleBitcoinCall : KeeperCall :=
  { target := KeeperVar.BitcoinKeeper
    owner := Module.bitcoin
    keeper :=
      { storeKeys := [⟨StoreKind.persistent, "bitcoin", some ⟨StoreKind.persistent, "bitcoin"⟩⟩]
        peers := [KeeperVar.BankKeeper, KeeperVar.AccountKeeper] } }

/-! ## Key maps -/

theorem lookup_filter_ne (m : KeyMap) (k x : String) (h : x ≠ k) :
    (m.filter (fun e => e.1 != k)).lookup x = m.lookup x := by
  induction m with
  | nil => rfl
  | cons e m ih =>
    obtain ⟨a, b⟩ := e
    by_cases hak : a = k
    · subst hak
      have hxa : (x == a) = false := by simpa using h
      simp [List.filter_cons, List.lookup_cons, hxa, ih]
    · have hak2 : (a != k) = true := by simpa using hak
      simp only [List.filter_cons, hak2, if_true, List.lookup_cons, ih]

theorem KeyMap.get_set (m : KeyMap) (k x : String) (v : StoreKey) :
    (m.set k v).get x = if x = k then some v else m.get x := by
  unfold KeyMap.set KeyMap.get
  by_cases h : x = k
  · subst h
    simp [List.lookup_cons]
  · have hxk : (x == k) = false := by simpa using h
    simp [List.lookup_cons, hxk, h, lookup_filter_ne m k x h]

theorem foldl_set_get (kind : StoreKind) (names : List String) (m : KeyMap) (x : String) :
    (names.foldl (fun m n => m.set n ⟨kind, n⟩) m).get x =
      if x ∈ names then some ⟨kind, x⟩ else m.get x := by
  induction names generalizing m with
  | nil => simp
  | cons n names ih =>
    rw [List.foldl_cons, ih, KeyMap.get_set]
    by_cases h1 : x ∈ names
    · simp [h1]
    · by_cases h2 : x = n
      · subst h2; simp
      · simp [h1, h2]

/-- A name requested from `sdk.New...StoreKeys` maps to the key of that name and
kind; any other name maps to `nil`. -/
theorem newStoreKeys_get (kind : StoreKind) (names : List String) (x : String) :
    (newStoreKeys kind names).get x = if x ∈ names then some ⟨kind, x⟩ else none := by
  unfold newStoreKeys
  rw [foldl_set_get]
  rfl

/-! ## The wiring of `NewBitcoinApp`, evaluated -/

/-- The keeper construction statements of `NewBitcoinApp`, with every store-key
lookup evaluated. -/
theorem wiring_keepers (bt : BitcoinTypes) :
    (NewBitcoinApp.wiring bt).keepers =
      [ ⟨KeeperVar.ParamsKeeper, Module.params,
          ⟨[⟨StoreKind.persistent, "params", some ⟨StoreKind.persistent, "params"⟩⟩,
            ⟨StoreKind.transient, "transient_params",
              some ⟨StoreKind.transient, "transient_params"⟩⟩], []⟩⟩,
        ⟨KeeperVar.AccountKeeper, Module.auth,
          ⟨[⟨StoreKind.persistent, "acc", some ⟨StoreKind.persistent, "acc"⟩⟩], []⟩⟩,
        ⟨KeeperVar.BankKeeper, Module.bank,
          ⟨[⟨StoreKind.persistent, "bank", some ⟨StoreKind.persistent, "bank"⟩⟩],
            [KeeperVar.AccountKeeper]⟩⟩,
        ⟨KeeperVar.scopedCapabilityKeeper, Module.capability,
          ⟨[⟨StoreKind.persistent, "capability", some ⟨StoreKind.persistent, "capability"⟩⟩,
            ⟨StoreKind.memory, "memory:capability",
              some ⟨StoreKind.memory, "memory:capability"⟩⟩], []⟩⟩,
        ⟨KeeperVar.CapabilityKeeper, Module.capability,
          ⟨[⟨StoreKind.persistent, "capability", some ⟨StoreKind.persistent, "capability"⟩⟩,
            ⟨StoreKind.memory, "memory:capability",
              some ⟨StoreKind.memory, "memory:capability"⟩⟩], []⟩⟩,
        ⟨KeeperVar.StakingKeeper, Module.staking,
          ⟨[⟨StoreKind.persistent, "staking", some ⟨StoreKind.persistent, "staking"⟩⟩],
            [KeeperVar.AccountKeeper, KeeperVar.BankKeeper]⟩⟩,
        ⟨KeeperVar.BitcoinKeeper, Module.bitcoin,
          ⟨[⟨StoreKind.persistent, bt.StoreKey, some ⟨StoreKind.persistent, bt.StoreKey⟩⟩],
            [KeeperVar.BankKeeper, KeeperVar.AccountKeeper]⟩⟩ ] := by
  simp [NewBitcoinApp.wiring, App.construct, App.keysAt, App.tkeysAt, App.memKeysAt,
    NewKVStoreKeys, NewTransientStoreKeys, NewMemoryStoreKeys, newStoreKeys_get,
    NewBitcoinApp.requested, authtypes.StoreKey, banktypes.StoreKey, stakingtypes.StoreKey,
    paramstypes.StoreKey, capabilitytypes.StoreKey, paramstypes.TStoreKey,
    capabilitytypes.MemStoreKey]

/-- The module manager `NewBitcoinApp` builds. -/
theorem wiring_mm (bt : BitcoinTypes) :
    (NewBitcoinApp.wiring bt).mm = some
      { Modules := [
          ⟨Module.auth, "auth", [KeeperVar.AccountKeeper]⟩,
          ⟨Module.bank, "bank", [KeeperVar.BankKeeper, KeeperVar.AccountKeeper]⟩,
          ⟨Module.capability, "capability", [KeeperVar.CapabilityKeeper]⟩,
          ⟨Module.params, "params", [KeeperVar.ParamsKeeper]⟩,
          ⟨Module.staking, "staking",
            [KeeperVar.StakingKeeper, KeeperVar.AccountKeeper, KeeperVar.BankKeeper]⟩,
          ⟨Module.bitcoin, bt.ModuleName, [KeeperVar.BitcoinKeeper, KeeperVar.BankKeeper]⟩]
        OrderInitGenesis := ["capability", "auth", "bank", "staking", bt.ModuleName]
        OrderBeginBlockers := ["capability", "auth", "bank", "staking", bt.ModuleName]
        OrderEndBlockers := ["staking", bt.ModuleName] } := by
  rfl

/-- C1: in each of the three ordering lists declared by `NewBitcoinApp`
(begin-block, end-block, genesis) every module name is the name of a module passed
to `module.NewManager`, and no module name occurs twice.  The name of the bitcoin
module is a parameter; it is taken to differ from the names of the SDK modules. -/
theorem ordering_lists_registered_nodup (bitcointypes : BitcoinTypes)
    (hname : bitcointypes.UniqueModuleName) :
    ∃ mm, (NewBitcoinApp.wiring bitcointypes).mm = some mm ∧
      ∀ order ∈ [mm.OrderBeginBlockers, mm.OrderEndBlockers, mm.OrderInitGenesis],
        (∀ name ∈ order, ∃ m ∈ mm.Modules, m.Name = name) ∧ order.Nodup := by
  refine ⟨_, wiring_mm bitcointypes, ?_⟩
  simp only [BitcoinTypes.UniqueModuleName, authtypes.ModuleName, banktypes.ModuleName,
    capabilitytypes.ModuleName, paramstypes.ModuleName, stakingtypes.ModuleName,
    List.mem_cons, List.mem_singleton, not_or, List.not_mem_nil, or_false] at hname
  obtain ⟨h1, h2, h3, h4, h5⟩ := hname
  have h1' := Ne.symm h1
  have h2' := Ne.symm h2
  have h3' := Ne.symm h3
  have h5' := Ne.symm h5
  intro order horder
  simp only [List.mem_cons, List.mem_singleton, List.not_mem_nil, or_false] at horder
  rcases horder with rfl | rfl | rfl <;> simp [*]

theorem ordering_lists_registered_nodup_witness :
    sampleBitcoinTypes.UniqueModuleName ∧
    ∃ mm, (NewBitcoinApp.wiring sampleBitcoinTypes).mm = some mm ∧
      ∀ order ∈ [mm.OrderBeginBlockers, mm.OrderEndBlockers, mm.OrderInitGenesis],
        (∀ name ∈ order, ∃ m ∈ mm.Modules, m.Name = name) ∧ order.Nodup :=
  ⟨by decide, ordering_lists_registered_nodup sampleBitcoinTypes (by decide)⟩

/-- C7: in the genesis ordering list the capability module is the first element
and precedes every other listed module name, while the end-block ordering list
does not start with the capability module. -/
theorem capability_first_in_genesis_not_first_in_end_block (bitcointypes : BitcoinTypes) :
    ∃ mm, (NewBitcoinApp.wiring bitcointypes).mm = some mm ∧
      mm.OrderInitGenesis.head? = some capabilitytypes.ModuleName ∧
      (∀ name ∈ mm.OrderInitGenesis, name ≠ capabilitytypes.ModuleName →
        mm.OrderInitGenesis.indexOf capabilitytypes.ModuleName <
          mm.OrderInitGenesis.indexOf name) ∧
      mm.OrderEndBlockers.head? ≠ some capabilitytypes.ModuleName := by
  refine ⟨_, wiring_mm bitcointypes, rfl, ?_, by simp [capabilitytypes.ModuleName]⟩
  intro name hmem hne
  simp only [capabilitytypes.ModuleName] at hne ⊢
  have h0 : List.indexOf "capability" ["capability", "auth", "bank", "staking",
      bitcointypes.ModuleName] = 0 := by
    simp [List.indexOf_cons]
  rw [h0]
  rw [List.indexOf_cons]
  have : ("capability" == name) = false := by
    simpa using Ne.symm hne
  simp [this]

/-- C8: every keeper passed as a dependency to a keeper constructor in
`NewBitcoinApp` is assigned by a strictly earlier construction statement, and the
keeper dependency graph has no cycle. -/
theorem keeper_dependencies_constructed_earlier (bitcointypes : BitcoinTypes) :
    (∀ (i : Nat) (c : KeeperCall), (NewBitcoinApp.wiring bitcointypes).keepers[i]? = some c →
      ∀ p ∈ c.keeper.peers, ∃ (j : Nat) (d : KeeperCall), j < i ∧
        (NewBitcoinApp.wiring bitcointypes).keepers[j]? = some d ∧ d.target = p) ∧
    (∀ k, ¬ Relation.TransGen (NewBitcoinApp.dependsOn bitcointypes) k k) := by
  constructor
  · intro i c hc p hp
    rw [wiring_keepers] at hc ⊢
    match i with
    | 0 | 1 | 3 | 4 =>
      simp at hc; subst hc; simp at hp
    | 2 =>
      simp at hc; subst hc; simp at hp; subst hp
      exact ⟨1, _, by decide, rfl, rfl⟩
    | 5 =>
      simp at hc; subst hc; simp at hp
      rcases hp with rfl | rfl
      · exact ⟨1, _, by decide, rfl, rfl⟩
      · exact ⟨2, _, by decide, rfl, rfl⟩
    | 6 =>
      simp at hc; subst hc; simp at hp
      rcases hp with rfl | rfl
      · exact ⟨2, _, by decide, rfl, rfl⟩
      · exact ⟨1, _, by decide, rfl, rfl⟩
    | n + 7 => simp at hc
  · have hstep : ∀ k p, NewBitcoinApp.dependsOn bitcointypes k p → p.position < k.position := by
      intro k p ⟨c, hc, hk, hp⟩
      rw [wiring_keepers] at hc
      simp only [List.mem_cons, List.mem_singleton, List.not_mem_nil, or_false] at hc
      rcases hc with rfl | rfl | rfl | rfl | rfl | rfl | rfl <;> subst hk <;>
        simp at hp <;> (try rcases hp with rfl | rfl) <;> simp [KeeperVar.position]
    have htrans : ∀ k p, Relation.TransGen (NewBitcoinApp.dependsOn bitcointypes) k p →
        p.position < k.position := by
      intro k p h
      induction h with
      | single h => exact hstep _ _ h
      | tail _ h ih => exact lt_trans (hstep _ _ h) ih
    intro k h
    exact lt_irrefl _ (htrans k k h)

/-- C9: in the genesis and the begin-block ordering lists, a listed module appears
after every module whose keeper was injected into its own keeper (bank after auth;
staking after auth and bank; bitcoin after auth and bank).  The name of the bitcoin
module is a parameter; it is taken to differ from the names of the SDK modules. -/
theorem modules_ordered_after_their_dependencies (bitcointypes : BitcoinTypes)
    (hname : bitcointypes.UniqueModuleName) :
    ∃ mm, (NewBitcoinApp.wiring bitcointypes).mm = some mm ∧
      ∀ order ∈ [mm.OrderInitGenesis, mm.OrderBeginBlockers],
        ∀ c ∈ (NewBitcoinApp.wiring bitcointypes).keepers, ∀ p ∈ c.keeper.peers,
          ∀ d ∈ (NewBitcoinApp.wiring bitcointypes).keepers, d.target = p →
            c.owner.Name bitcointypes ∈ order →
              d.owner.Name bitcointypes ∈ order ∧
                order.indexOf (d.owner.Name bitcointypes) <
                  order.indexOf (c.owner.Name bitcointypes) := by
  refine ⟨_, wiring_mm bitcointypes, ?_⟩
  simp only [BitcoinTypes.UniqueModuleName, authtypes.ModuleName, banktypes.ModuleName,
    capabilitytypes.ModuleName, paramstypes.ModuleName, stakingtypes.ModuleName,
    List.mem_cons, List.mem_singleton, not_or, List.not_mem_nil, or_false] at hname
  obtain ⟨h1, h2, h3, h4, h5⟩ := hname
  have h1' := Ne.symm h1
  have h2' := Ne.symm h2
  have h3' := Ne.symm h3
  have h5' := Ne.symm h5
  intro order horder c hc p hp d hd hdp hin
  rw [wiring_keepers] at hc hd
  simp only [List.mem_cons, List.mem_singleton, List.not_mem_nil, or_false] at horder hc hd
  have hedge : (c.owner = Module.bank ∧ d.owner = Module.auth) ∨
      (c.owner = Module.staking ∧ (d.owner = Module.auth ∨ d.owner = Module.bank)) ∨
      (c.owner = Module.bitcoin ∧ (d.owner = Module.auth ∨ d.owner = Module.bank)) := by
    rcases hc with rfl | rfl | rfl | rfl | rfl | rfl | rfl <;>
      simp at hp <;>
      rcases hp with rfl | rfl <;>
      rcases hd with rfl | rfl | rfl | rfl | rfl | rfl | rfl <;>
      simp at hdp <;> simp
  rcases hedge with ⟨hco, hdo⟩ | ⟨hco, hdo | hdo⟩ | ⟨hco, hdo | hdo⟩ <;>
    rcases horder with rfl | rfl <;>
    simp [hco, hdo, Module.Name, bitcoinAppModuleName, authtypes.ModuleName,
      banktypes.ModuleName, stakingtypes.ModuleName, List.indexOf_cons, *]

theorem modules_ordered_after_their_dependencies_witness :
    sampleBitcoinTypes.UniqueModuleName ∧
    ∃ mm, (NewBitcoinApp.wiring sampleBitcoinTypes).mm = some mm ∧
      ∀ order ∈ [mm.OrderInitGenesis, mm.OrderBeginBlockers],
        ∀ c ∈ (NewBitcoinApp.wiring sampleBitcoinTypes).keepers, ∀ p ∈ c.keeper.peers,
          ∀ d ∈ (NewBitcoinApp.wiring sampleBitcoinTypes).keepers, d.target = p →
            c.owner.Name sampleBitcoinTypes ∈ order →
              d.owner.Name sampleBitcoinTypes ∈ order ∧
                order.indexOf (d.owner.Name sampleBitcoinTypes) <
                  order.indexOf (c.owner.Name sampleBitcoinTypes) :=
  ⟨by decide, modules_ordered_after_their_dependencies sampleBitcoinTypes (by decide)⟩

/-- C10: every store-key lookup made while constructing keepers in
`NewBitcoinApp` uses a name that was requested when the indexed key map was
allocated, and yields the key of that name and kind, never `nil`. -/
theorem keeper_store_keys_requested_and_present (bitcointypes : BitcoinTypes) :
    ∀ c ∈ (NewBitcoinApp.wiring bitcointypes).keepers, ∀ a ∈ c.keeper.storeKeys,
      a.name ∈ NewBitcoinApp.requested bitcointypes a.map ∧
      a.key = ((NewBitcoinApp.wiring bitcointypes).mapOf a.map).get a.name ∧
      a.key = some ⟨a.map, a.name⟩ := by
  intro c hc a ha
  have hmap : ∀ (kind : StoreKind) (x : String),
      ((NewBitcoinApp.wiring bitcointypes).mapOf kind).get x =
        if x ∈ NewBitcoinApp.requested bitcointypes kind then some ⟨kind, x⟩ else none := by
    intro kind x
    cases kind <;>
      simp [NewBitcoinApp.wiring, App.mapOf, App.construct, NewKVStoreKeys,
        NewTransientStoreKeys, NewMemoryStoreKeys, newStoreKeys_get]
  rw [hmap]
  rw [wiring_keepers] at hc
  simp only [List.mem_cons, List.mem_singleton, List.not_mem_nil, or_false] at hc
  rcases hc with rfl | rfl | rfl | rfl | rfl | rfl | rfl <;>
    simp only [List.mem_cons, List.mem_singleton, List.not_mem_nil, or_false] at ha <;>
    (try rcases ha with rfl | rfl) <;>
    simp [NewBitcoinApp.requested, authtypes.StoreKey, banktypes.StoreKey, stakingtypes.StoreKey,
      paramstypes.StoreKey, capabilitytypes.StoreKey, paramstypes.TStoreKey,
      capabilitytypes.MemStoreKey]

theorem keeper_store_keys_requested_and_present_witness :
    sampleBitcoinCall ∈ (NewBitcoinApp.wiring sampleBitcoinTypes).keepers ∧
    "bitcoin" ∈ NewBitcoinApp.requested sampleBitcoinTypes StoreKind.persistent ∧
    some (⟨StoreKind.persistent, "bitcoin"⟩ : StoreKey) =
      ((NewBitcoinApp.wiring sampleBitcoinTypes).mapOf StoreKind.persistent).get "bitcoin" ∧
    some (⟨StoreKind.persistent, "bitcoin"⟩ : StoreKey) = some ⟨StoreKind.persistent, "bitcoin"⟩ :=
  ⟨by decide,
    keeper_store_keys_requested_and_present sampleBitcoinTypes sampleBitcoinCall (by decide)
      ⟨StoreKind.persistent, "bitcoin", some ⟨StoreKind.persistent, "bitcoin"⟩⟩ (by decide)⟩

/-- C2: keepers of two different modules wired in `NewBitcoinApp` never receive
the same store key (same name and kind).  The store-key name of the bitcoin module
is a parameter; it is taken to differ from the store-key names of the SDK
modules. -/
theorem keepers_of_distinct_modules_hold_distinct_keys (bitcointypes : BitcoinTypes)
    (hkey : bitcointypes.UniqueStoreKey) :
    ∀ c₁ ∈ (NewBitcoinApp.wiring bitcointypes).keepers,
      ∀ c₂ ∈ (NewBitcoinApp.wiring bitcointypes).keepers, c₁.owner ≠ c₂.owner →
        ∀ a₁ ∈ c₁.keeper.storeKeys, ∀ a₂ ∈ c₂.keeper.storeKeys, a₁.key ≠ a₂.key := by
  simp only [BitcoinTypes.UniqueStoreKey, authtypes.StoreKey, banktypes.StoreKey,
    capabilitytypes.StoreKey, paramstypes.StoreKey, stakingtypes.StoreKey,
    List.mem_cons, List.mem_singleton, not_or, List.not_mem_nil, or_false] at hkey
  obtain ⟨h1, h2, h3, h4, h5⟩ := hkey
  have h1' := Ne.symm h1
  have h2' := Ne.symm h2
  have h3' := Ne.symm h3
  have h4' := Ne.symm h4
  have h5' := Ne.symm h5
  intro c₁ hc₁ c₂ hc₂ hne a₁ ha₁ a₂ ha₂
  rw [wiring_keepers] at hc₁ hc₂
  simp only [List.mem_cons, List.mem_singleton, List.not_mem_nil, or_false] at hc₁ hc₂
  rcases hc₁ with rfl | rfl | rfl | rfl | rfl | rfl | rfl <;>
    rcases hc₂ with rfl | rfl | rfl | rfl | rfl | rfl | rfl <;>
    simp at hne <;>
    simp only [List.mem_cons, List.mem_singleton, List.not_mem_nil, or_false] at ha₁ ha₂ <;>
    (try rcases ha₁ with rfl | rfl) <;>
    (try rcases ha₂ with rfl | rfl) <;>
    simp [*]

theorem keepers_of_distinct_modules_hold_distinct_keys_witness :
    sampleBitcoinTypes.UniqueStoreKey ∧
    sampleBankCall ∈ (NewBitcoinApp.wiring sampleBitcoinTypes).keepers ∧
    sampleBitcoinCall ∈ (NewBitcoinApp.wiring sampleBitcoinTypes).keepers ∧
    sampleBankCall.owner ≠ sampleBitcoinCall.owner ∧
    (⟨StoreKind.persistent, "bank", some ⟨StoreKind.persistent, "bank"⟩⟩ : KeyArg).key ≠
      (⟨StoreKind.persistent, "bitcoin", some ⟨StoreKind.persistent, "bitcoin"⟩⟩ : KeyArg).key :=
  ⟨by decide, by decide, by decide, by decide,
    keepers_of_distinct_modules_hold_distinct_keys sampleBitcoinTypes (by decide)
      sampleBankCall (by decide) sampleBitcoinCall (by decide) (by decide)
      ⟨StoreKind.persistent, "bank", some ⟨StoreKind.persistent, "bank"⟩⟩ (by decide)
      ⟨StoreKind.persistent, "bitcoin", some ⟨StoreKind.persistent, "bitcoin"⟩⟩ (by decide)⟩

/-- C3: when `AppStateBytes` decodes to a genesis map, `InitChainer` ends exactly
as the module manager's `InitGenesis` does on that map, and `InitGenesis` is called
once, with the decoded map unchanged. -/
theorem InitChainer_delegates_decoded_genesis {Context Response : Type}
    (c : Collaborators Context Response) (app : App) (mm : Manager) (ctx : Context)
    (req : RequestInitChain) (genesisState : GenesisState)
    (hmm : app.mm = some mm)
    (hdecode : c.UnmarshalJSON req.AppStateBytes = Except.ok genesisState) :
    (InitChainer c app ctx req).result = c.InitGenesis mm ctx genesisState ∧
    (InitChainer c app ctx req).calls =
      [Call.MustUnmarshalJSON req.AppStateBytes, Call.InitGenesis genesisState] := by
  simp [InitChainer, MustUnmarshalJSON, hdecode, hmm]

theorem InitChainer_delegates_decoded_genesis_witness :
    (NewBitcoinApp.wiring sampleBitcoinTypes).mm.isSome = true ∧
    sampleCollaborators.UnmarshalJSON sampleAppStateBytes =
      Except.ok [("auth", [49]), ("bank", [50])] ∧
    (InitChainer sampleCollaborators (NewBitcoinApp.wiring sampleBitcoinTypes) ()
        { AppStateBytes := sampleAppStateBytes }).result =
      Outcome.returned [("auth", [49]), ("bank", [50])] ∧
    (InitChainer sampleCollaborators (NewBitcoinApp.wiring sampleBitcoinTypes) ()
        { AppStateBytes := sampleAppStateBytes }).calls =
      [Call.MustUnmarshalJSON sampleAppStateBytes,
       Call.InitGenesis [("auth", [49]), ("bank", [50])]] :=
  ⟨rfl, rfl,
    InitChainer_delegates_decoded_genesis sampleCollaborators
      (NewBitcoinApp.wiring sampleBitcoinTypes) _ () { AppStateBytes := sampleAppStateBytes }
      [("auth", [49]), ("bank", [50])] (wiring_mm sampleBitcoinTypes) rfl⟩

/-- C4: when `AppStateBytes` cannot be decoded, `InitChainer` panics with the
decoding error and `InitGenesis` is not called. -/
theorem InitChainer_panics_on_undecodable_genesis {Context Response : Type}
    (c : Collaborators Context Response) (app : App) (ctx : Context)
    (req : RequestInitChain) (err : Error)
    (hdecode : c.UnmarshalJSON req.AppStateBytes = Except.error err) :
    (InitChainer c app ctx req).result = Outcome.panicked err ∧
    ∀ genesisState, Call.InitGenesis genesisState ∉ (InitChainer c app ctx req).calls := by
  simp [InitChainer, MustUnmarshalJSON, hdecode]

theorem InitChainer_panics_on_undecodable_genesis_witness :
    sampleCollaborators.UnmarshalJSON [123] = Except.error "invalid character" ∧
    (InitChainer sampleCollaborators (NewBitcoinApp.wiring sampleBitcoinTypes) ()
        { AppStateBytes := [123] }).result = Outcome.panicked "invalid character" ∧
    Call.InitGenesis [] ∉
      (InitChainer sampleCollaborators (NewBitcoinApp.wiring sampleBitcoinTypes) ()
        { AppStateBytes := [123] }).calls :=
  ⟨rfl,
    (InitChainer_panics_on_undecodable_genesis sampleCollaborators
      (NewBitcoinApp.wiring sampleBitcoinTypes) () { AppStateBytes := [123] }
      "invalid character" rfl).1,
    (InitChainer_panics_on_undecodable_genesis sampleCollaborators
      (NewBitcoinApp.wiring sampleBitcoinTypes) () { AppStateBytes := [123] }
      "invalid character" rfl).2 []⟩

/-- C5, counterexample: for a height the store engine cannot load (height 7 of an
engine that committed heights 1 to 3), `LoadHeight` returns the error to its caller
and does not panic. -/
theorem LoadHeight_unloadable_height_returns_normally :
    sampleCollaborators.LoadVersion 7 = some "version does not exist" ∧
    (LoadHeight sampleCollaborators 7).result =
      Outcome.returned (some "version does not exist") ∧
    ¬ ∃ err, (LoadHeight sampleCollaborators 7).result = Outcome.panicked err := by
  refine ⟨rfl, rfl, ?_⟩
  rintro ⟨err, h⟩
  simp [LoadHeight] at h

/-- C5, amended: for a height the store engine cannot load, `LoadHeight` makes the
single call `LoadVersion(height)` and returns the engine's error to its caller as
an ordinary return value. -/
theorem LoadHeight_returns_engine_error {Context Response : Type}
    (c : Collaborators Context Response) (height : Int) (err : Error)
    (hfail : c.LoadVersion height = some err) :
    (LoadHeight c height).result = Outcome.returned (some err) ∧
    (LoadHeight c height).calls = [Call.LoadVersion height] := by
  simp [LoadHeight, hfail]

theorem LoadHeight_returns_engine_error_witness :
    sampleCollaborators.LoadVersion 7 = some "version does not exist" ∧
    (LoadHeight sampleCollaborators 7).result =
      Outcome.returned (some "version does not exist") ∧
    (LoadHeight sampleCollaborators 7).calls = [Call.LoadVersion 7] :=
  ⟨rfl, LoadHeight_returns_engine_error sampleCollaborators 7 "version does not exist" rfl⟩

/-- With module-account permissions that name the two staking pools, key names
that pass the checks of `sdk.New...StoreKeys`, order setters that accept the lists
and no name mounted twice, the body of `NewBitcoinApp` calls `LoadLatestVersion`
if and only if `loadLatest` is true, panics with the error that call reports, and
returns the wired `App` otherwise. -/
theorem NewBitcoinApp.build_restores_iff_loadLatest {Context Response : Type}
    (c : Collaborators Context Response) (bitcointypes : BitcoinTypes)
    (maccPerms : MaccPerms) (loadLatest : Bool)
    (hchecks : firstPanic [
      assertStoreKeyNames (NewBitcoinApp.requested bitcointypes StoreKind.persistent),
      assertStoreKeyNames (NewBitcoinApp.requested bitcointypes StoreKind.transient),
      assertStoreKeyNames (NewBitcoinApp.requested bitcointypes StoreKind.memory),
      stakingkeeperEnsureModuleAccounts maccPerms,
      c.SetOrderCheck "SetOrderBeginBlockers"
        (((NewBitcoinApp.wiring bitcointypes).mm.map
          (fun mm => mm.Modules.map AppModule.Name)).getD [])
        (((NewBitcoinApp.wiring bitcointypes).mm.map Manager.OrderBeginBlockers).getD []),
      c.SetOrderCheck "SetOrderEndBlockers"
        (((NewBitcoinApp.wiring bitcointypes).mm.map
          (fun mm => mm.Modules.map AppModule.Name)).getD [])
        (((NewBitcoinApp.wiring bitcointypes).mm.map Manager.OrderEndBlockers).getD []),
      c.SetOrderCheck "SetOrderInitGenesis"
        (((NewBitcoinApp.wiring bitcointypes).mm.map
          (fun mm => mm.Modules.map AppModule.Name)).getD [])
        (((NewBitcoinApp.wiring bitcointypes).mm.map Manager.OrderInitGenesis).getD [])] = none)
    (hkeys : mountCollision (NewBitcoinApp.wiring bitcointypes).keys
      (NewBitcoinApp.wiring bitcointypes).tkeys = false)
    (hmem : mountCollision ((NewBitcoinApp.wiring bitcointypes).keys ++
      (NewBitcoinApp.wiring bitcointypes).tkeys) (NewBitcoinApp.wiring bitcointypes).memKeys =
        false) :
    (Call.LoadLatestVersion ∈ (NewBitcoinApp.build c bitcointypes maccPerms loadLatest).calls ↔
      loadLatest = true) ∧
    (loadLatest = true → ∀ err,
      c.LoadLatestVersion (NewBitcoinApp.wiring bitcointypes).mounted = some err →
        (NewBitcoinApp.build c bitcointypes maccPerms loadLatest).result =
          Outcome.panicked err) ∧
    (loadLatest = true →
      c.LoadLatestVersion (NewBitcoinApp.wiring bitcointypes).mounted = none →
        (NewBitcoinApp.build c bitcointypes maccPerms loadLatest).result =
          Outcome.returned (NewBitcoinApp.wiring bitcointypes)) ∧
    (loadLatest = false →
      (NewBitcoinApp.build c bitcointypes maccPerms loadLatest).result =
        Outcome.returned (NewBitcoinApp.wiring bitcointypes)) := by
  unfold NewBitcoinApp.build
  simp only [hchecks, hkeys, hmem]
  cases loadLatest
  · simp
  · cases h : c.LoadLatestVersion (NewBitcoinApp.wiring bitcointypes).mounted <;> simp [h]

/-- With `nil` module-account permissions `stakingkeeper.NewKeeper` panics, so
`NewBitcoinApp` panics for every store engine, every value of the bitcoin constants
and every `loadLatest`, before any store is mounted. -/
theorem NewBitcoinApp_always_panics {Context Response : Type}
    (c : Collaborators Context Response) (bitcointypes : BitcoinTypes) (loadLatest : Bool) :
    (∃ err, (NewBitcoinApp c bitcointypes loadLatest).result = Outcome.panicked err) ∧
    (NewBitcoinApp c bitcointypes loadLatest).calls = [] := by
  have hstaking : stakingkeeperEnsureModuleAccounts [] =
      some "bonded_tokens_pool module account has not been set" := rfl
  have hfirst : ∀ (a b d : Option Error) (rest : List (Option Error)),
      ∃ err, firstPanic (a :: b :: d :: stakingkeeperEnsureModuleAccounts [] :: rest) =
        some err := by
    intro a b d rest
    rw [hstaking]
    cases a <;> cases b <;> cases d <;> simp [firstPanic]
  obtain ⟨err, herr⟩ := hfirst
    (assertStoreKeyNames (NewBitcoinApp.requested bitcointypes StoreKind.persistent))
    (assertStoreKeyNames (NewBitcoinApp.requested bitcointypes StoreKind.transient))
    (assertStoreKeyNames (NewBitcoinApp.requested bitcointypes StoreKind.memory))
    [c.SetOrderCheck "SetOrderBeginBlockers"
        (((NewBitcoinApp.wiring bitcointypes).mm.map
          (fun mm => mm.Modules.map AppModule.Name)).getD [])
        (((NewBitcoinApp.wiring bitcointypes).mm.map Manager.OrderBeginBlockers).getD []),
      c.SetOrderCheck "SetOrderEndBlockers"
        (((NewBitcoinApp.wiring bitcointypes).mm.map
          (fun mm => mm.Modules.map AppModule.Name)).getD [])
        (((NewBitcoinApp.wiring bitcointypes).mm.map Manager.OrderEndBlockers).getD []),
      c.SetOrderCheck "SetOrderInitGenesis"
        (((NewBitcoinApp.wiring bitcointypes).mm.map
          (fun mm => mm.Modules.map AppModule.Name)).getD [])
        (((NewBitcoinApp.wiring bitcointypes).mm.map Manager.OrderInitGenesis).getD [])]
  constructor
  · exact ⟨err, by simp only [NewBitcoinApp, NewBitcoinApp.build, herr]⟩
  · simp only [NewBitcoinApp, NewBitcoinApp.build, herr]

/-- C6, failing input: with `loadLatest` true `NewBitcoinApp` panics in
`stakingkeeper.NewKeeper` ("bonded_tokens_pool module account has not been set")
and never calls `LoadLatestVersion`; with `loadLatest` false it panics the same way
and returns no `App`.  With the pool module accounts declared, the same body and
the same store engine return the wired `App` for `loadLatest` false and attempt
the restoration for `loadLatest` true. -/
theorem NewBitcoinApp_panics_before_restoration :
    (NewBitcoinApp sampleCollaborators sampleBitcoinTypes true).result =
      Outcome.panicked "bonded_tokens_pool module account has not been set" ∧
    Call.LoadLatestVersion ∉ (NewBitcoinApp sampleCollaborators sampleBitcoinTypes true).calls ∧
    (NewBitcoinApp sampleCollaborators sampleBitcoinTypes false).result =
      Outcome.panicked "bonded_tokens_pool module account has not been set" ∧
    (NewBitcoinApp.build sampleCollaborators sampleBitcoinTypes samplePermissions false).result =
      Outcome.returned (NewBitcoinApp.wiring sampleBitcoinTypes) ∧
    Call.LoadLatestVersion ∈
      (NewBitcoinApp.build sampleCollaborators sampleBitcoinTypes samplePermissions true).calls ∧
    (NewBitcoinApp.build brokenCollaborators sampleBitcoinTypes samplePermissions true).result =
      Outcome.panicked "failed to load latest version" := by
  refine ⟨?_, ?_, ?_, ?_, ?_, ?_⟩ <;> decide

end app
